import Mathlib

/-!
Verification of the dynamic staking strategy optimizer
(`dynamic_strategy_optimizer.py`, `enhanced_miner.py`).

The development shallowly embeds the four core components — metrics
calculation, ranking, risk-parity allocation and the rebalance policy —
as executable Lean functions over `ℚ`, and proves or refutes the spec's
claims about them.

Floating-point conventions of the source are modelled as follows:
* finite float arithmetic is modelled exactly by `ℚ`;
* the two irrational operations (`np.std`'s square root and the
  geometric-mean root `x ** (1/n)`) are abstracted as function
  parameters `sqrtQ : ℚ → ℚ` and `nroot : ℚ → ℕ → ℚ`;
* the IEEE special values that the source can actually produce
  (`float('inf')` for `profit_factor`, `nan` from `0/0` in the
  drawdown and `np.mean([])` paths) are modelled by the three-valued
  type `FVal` below, with the source's comparison semantics
  (`nan != 0` is true, `nan > 0` and `nan <= c` are false,
  `inf > 0` is true, finite `x / inf = 0`).
-/

namespace Subnet88

/-- Float-like value: a finite rational, positive infinity, or NaN. -/
inductive FVal where
  | fin (q : ℚ)
  | inf
  | nan
  deriving DecidableEq, Inhabited

/-- True exactly on NaN. -/
def FVal.isNan : FVal → Bool
  | .nan => true
  | _ => false

/-- Absolute value; `abs(nan) = nan`, `abs(inf) = inf`. -/
def FVal.abs : FVal → FVal
  | .fin q => .fin |q|
  | .inf => .inf
  | .nan => .nan

/-- Nonnegativity test for a float-like value (false on NaN, as in IEEE
comparisons). -/
def FVal.nonnegB : FVal → Bool
  | .fin q => decide (0 ≤ q)
  | .inf => true
  | .nan => false

/-- Python's built-in `max(v, c)` for a float-like `v` and a finite `c`:
it returns `c` only when `c > v` is true, so `max(nan, c) = nan` and
`max(inf, c) = inf`. -/
def FVal.pyMax : FVal → ℚ → FVal
  | .fin q, c => .fin (if q < c then c else q)
  | .inf, _ => .inf
  | .nan, _ => .nan

/-- Multiplication of a float-like value by a finite rational, used to
state the composite-score formula `mar · (lsr · odds · daily_return · 100)`;
only the finite and NaN cases can arise there, since `mar` is never
infinite. -/
def FVal.mulQ : FVal → ℚ → FVal
  | .fin a, q => .fin (a * q)
  | .inf, _ => .inf
  | .nan, _ => .nan

/-- Binary minimum with NaN propagation, as used by `np.min`'s reduction. -/
def FVal.fmin : FVal → FVal → FVal
  | .nan, _ => .nan
  | _, .nan => .nan
  | .fin a, .fin b => .fin (min a b)
  | .inf, x => x
  | _, .inf => .inf

/-- Reduction `np.min` over a nonempty list of float-like values (`fin 0` junk value on
the empty list, which the source guards against). -/
def npMin : List FVal → FVal
  | [] => .fin 0
  | x :: xs => xs.foldl FVal.fmin x

/-- Arithmetic mean of a list of rationals (`0` junk value on the empty
list, which every call site guards against). -/
def meanQ (l : List ℚ) : ℚ := l.sum / l.length

/-- Population variance, the square of `np.std`. -/
def varQ (l : List ℚ) : ℚ := meanQ (l.map fun r => (r - meanQ l) ^ 2)

/-- One input row of an entity's chronologically sorted time series:
the `price`, `emission` and `weight` columns of the `bndaily` table. -/
structure Row where
  price : ℚ
  emission : ℚ
  weight : ℚ
  deriving DecidableEq, Inhabited

/-- Simple period returns `np.diff(prices) / prices[:-1]` followed by the
`np.isfinite` filter: a division by a zero previous price yields
`±inf`/`nan` and is discarded, all other quotients are finite. -/
def computeReturns (prices : List ℚ) : List ℚ :=
  (prices.zip prices.tail).filterMap fun p =>
    if p.1 = 0 then none else some ((p.2 - p.1) / p.1)

/-- Cumulative products `np.cumprod(1 + returns)`. -/
def cumulativeOf (returns : List ℚ) : List ℚ :=
  (returns.scanl (fun acc r => acc * (1 + r)) 1).tail

/-- Running maxima `np.maximum.accumulate`. -/
def runningMax : List ℚ → List ℚ
  | [] => []
  | x :: xs => xs.scanl max x

/-- Per-step drawdowns `(cumulative - peak) / peak`; a zero running peak
(which happens when the first return is exactly `-1`) makes the float
division `0/0 = nan`. -/
def drawdownsOf (returns : List ℚ) : List FVal :=
  ((cumulativeOf returns).zip (runningMax (cumulativeOf returns))).map fun cp =>
    if cp.2 = 0 then FVal.nan else FVal.fin ((cp.1 - cp.2) / cp.2)

/-- Average winning return: mean of the positive returns, `0` when there
are none. -/
def avgWinOf (returns : List ℚ) : ℚ :=
  if 0 < (returns.filter fun r => 0 < r).length then
    meanQ (returns.filter fun r => 0 < r)
  else 0

/-- Average losing return. The source guards the mean of the negative
subset by `total_days - positive_days > 0`, which also counts zero
returns; when that guard passes but the negative subset is empty,
`np.mean([])` yields NaN. -/
def avgLossOf (returns : List ℚ) : FVal :=
  if (returns.filter fun r => 0 < r).length < returns.length then
    (if (returns.filter fun r => r < 0).length = 0 then FVal.nan
     else FVal.fin (meanQ (returns.filter fun r => r < 0)))
  else FVal.fin 0

/-- Profit factor `abs(avg_win / avg_loss) if avg_loss != 0 else inf`.
`nan != 0` is true in Python, and `abs(x / nan) = nan`. -/
def profitFactorOf (returns : List ℚ) : FVal :=
  match avgLossOf returns with
  | .fin l => if l ≠ 0 then .fin |avgWinOf returns / l| else .inf
  | _ => .nan

/-- Fraction of returns that are strictly positive (the guard
`total_days > 0` of the source is kept). -/
def winRateOf (returns : List ℚ) : ℚ :=
  if 0 < returns.length then
    ((returns.filter fun r => 0 < r).length : ℚ) / (returns.length : ℚ)
  else 0

/-- Kelly criterion
`win_rate - (1 - win_rate)/profit_factor if profit_factor > 0 else 0`:
`inf > 0` is true and `(1 - win_rate)/inf = 0`, `nan > 0` is false. -/
def kellyOf (returns : List ℚ) : ℚ :=
  match profitFactorOf returns with
  | .fin f => if 0 < f then winRateOf returns - (1 - winRateOf returns) / f else 0
  | .inf => winRateOf returns
  | .nan => 0

/-- One per-entity metric record, with exactly the fields the source
stores in `metrics[netuid]`. -/
structure MetricRecord where
  total_return : ℚ
  volatility : ℚ
  sharpe : ℚ
  max_drawdown : FVal
  win_rate : ℚ
  profit_factor : FVal
  kelly : ℚ
  mar : FVal
  lsr : ℚ
  odds : ℚ
  daily_return : ℚ
  composite_score : FVal
  emission : ℚ
  weight : ℚ
  current_price : ℚ
  data_points : ℕ
  deriving DecidableEq, Inhabited

/-- The record built by the body of `calculate_performance_metrics` once
all guards have passed. `sqrtQ` abstracts the square root inside
`np.std`, `nroot q n` abstracts `q ** (1/n)`. -/
def mkRecord (sqrtQ : ℚ → ℚ) (nroot : ℚ → ℕ → ℚ) (rows : List Row) : MetricRecord :=
  let prices := rows.map Row.price
  let returns := computeReturns prices
  let p0 := prices.headD 0
  let plast := prices.getLastD 0
  let total_return := if 0 < p0 then (plast - p0) / p0 else 0
  let volatility := if 1 < returns.length then sqrtQ (varQ returns) else 0
  let sharpe := if 0 < volatility then meanQ returns / volatility else 0
  let mdRaw := if 0 < (drawdownsOf returns).length then npMin (drawdownsOf returns)
    else .fin 0
  let profit_factor := profitFactorOf returns
  let kelly := kellyOf returns
  let mar := match (FVal.abs mdRaw).pyMax (1/100) with
    | .fin d => FVal.fin (total_return / d)
    | _ => FVal.nan
  let absSum := (returns.map fun r => |r|).sum
  let lsr := if 0 < absSum then returns.sum / absSum else 0
  let odds := 50 + kelly / 2 * 100
  let daily_return := if 0 < returns.length then nroot (1 + total_return) returns.length - 1
    else 0
  { total_return := total_return
    volatility := volatility
    sharpe := sharpe
    max_drawdown := FVal.abs mdRaw
    win_rate := winRateOf returns
    profit_factor := profit_factor
    kelly := kelly
    mar := mar
    lsr := lsr
    odds := odds
    daily_return := daily_return
    composite_score :=
      match mar with
      | .fin m => FVal.fin (m * lsr * odds * daily_return * 100)
      | _ => FVal.nan
    emission := meanQ (rows.map Row.emission)
    weight := meanQ (rows.map Row.weight)
    current_price := plast
    data_points := returns.length }

/-- Function `calculate_performance_metrics` for a single entity: the source skips
the entity (produces no record) when it has fewer than 5 samples, when
all prices are zero, or when no finite return remains. -/
def calculate_performance_metrics (sqrtQ : ℚ → ℚ) (nroot : ℚ → ℕ → ℚ)
    (rows : List Row) : Option MetricRecord :=
  if rows.length < 5 then none
  else if (rows.map Row.price).length = 0 ∨ ∀ p ∈ rows.map Row.price, p = 0 then none
  else if (computeReturns (rows.map Row.price)).length = 0 then none
  else some (mkRecord sqrtQ nroot rows)

/-! ## Configuration and allocation maps -/

/-- Optimizer configuration. The constructor of `DynamicStrategyOptimizer`
takes `lookback_days`, `rebalance_threshold` and `max_allocation` and
hard-codes the remaining fields. -/
structure Config where
  lookback_days : ℕ
  rebalance_threshold : ℚ
  max_allocation : ℚ
  min_allocation : ℚ
  cash_allocation : ℚ
  max_subnets : ℕ
  min_subnets : ℕ
  max_drawdown_limit : ℚ
  deriving DecidableEq

/-- Constructor `DynamicStrategyOptimizer.__init__`: the hard-coded constants are
`min_allocation = 0.02`, `cash_allocation = 0.05`, `min_subnets = 5`,
`max_subnets = 10`, `max_drawdown_limit = 0.8`. -/
def mkOptimizer (lookback : ℕ) (threshold maxAlloc : ℚ) : Config :=
  { lookback_days := lookback
    rebalance_threshold := threshold
    max_allocation := maxAlloc
    min_allocation := 2/100
    cash_allocation := 5/100
    max_subnets := 10
    min_subnets := 5
    max_drawdown_limit := 8/10 }

/-- An allocation map: a Python dict from netuid to fraction, modelled as
an association list in insertion order. -/
abbrev AllocationMap := List (ℕ × ℚ)

/-- Dict lookup `m[k]` (`none` when the key is absent). -/
def lookupKey (m : AllocationMap) (k : ℕ) : Option ℚ :=
  (m.find? fun e => e.1 == k).map Prod.snd

/-- Dict assignment `m[k] = v`: replaces the value of an existing key in
place, otherwise appends the new binding. -/
def insertKey (m : AllocationMap) (k : ℕ) (v : ℚ) : AllocationMap :=
  if m.any fun e => e.1 == k then m.map fun e => if e.1 == k then (k, v) else e
  else m ++ [(k, v)]

/-- Dict value sum `sum(m.values())`. -/
def sumValues (m : AllocationMap) : ℚ := (m.map Prod.snd).sum

/-- Sum of the non-cash entries (every key other than the cash sentinel 0). -/
def nonCashSum (m : AllocationMap) : ℚ :=
  sumValues (m.filter fun e => e.1 ≠ 0)

/-! ## Allocator (`calculate_optimal_allocation`) -/

/-- The top `max_subnets` entities of the ranked list. -/
def selectedOf (cfg : Config) (ranked : List ℕ) : List ℕ :=
  ranked.take cfg.max_subnets

/-- Inverse-volatility weight `1.0 / max(metrics[netuid]['volatility'], 0.01)`
of one entity, `none` when the entity has no metric record. -/
def invVolOf (metrics : List (ℕ × MetricRecord)) (n : ℕ) : Option ℚ :=
  (metrics.lookup n).map fun m => 1 / max m.volatility (1/100)

/-- Accumulator `total_inv_vol`: summed over the selected entities (an entity
appearing twice in the ranked list is accumulated twice, as in the
source's loop). -/
def totalInvVol (cfg : Config) (ranked : List ℕ) (metrics : List (ℕ × MetricRecord)) : ℚ :=
  ((selectedOf cfg ranked).filterMap (invVolOf metrics)).sum

/-- One iteration of the normalize-and-clamp loop:
`allocations[netuid] = max(min_allocation, min(max_allocation, base))`
with `base = inv_vol / total_inv_vol * total_risk_budget`, executed for a
selected entity that has a metric record, provided `total_inv_vol > 0`. -/
def allocStep (cfg : Config) (ranked : List ℕ) (metrics : List (ℕ × MetricRecord))
    (acc : AllocationMap) (n : ℕ) : AllocationMap :=
  match invVolOf metrics n with
  | some iv =>
    if 0 < totalInvVol cfg ranked metrics then
      insertKey acc n
        (max cfg.min_allocation
          (min cfg.max_allocation
            (iv / totalInvVol cfg ranked metrics * (1 - cfg.cash_allocation))))
    else acc
  | none => acc

/-- The `allocations` dict after the normalize-and-clamp loop over the
selected entities. -/
def clampedAllocations (cfg : Config) (ranked : List ℕ)
    (metrics : List (ℕ × MetricRecord)) : AllocationMap :=
  (selectedOf cfg ranked).foldl (allocStep cfg ranked metrics) []

/-- Pre-shrink total `total_allocated = sum(allocations.values())`. -/
def totalAllocated (cfg : Config) (ranked : List ℕ)
    (metrics : List (ℕ × MetricRecord)) : ℚ :=
  sumValues (clampedAllocations cfg ranked metrics)

/-- The proportional-shrink step runs exactly when the clamped sum
exceeds `total_risk_budget = 1 - cash_allocation`. -/
def shrinkExecuted (cfg : Config) (ranked : List ℕ)
    (metrics : List (ℕ × MetricRecord)) : Prop :=
  1 - cfg.cash_allocation < totalAllocated cfg ranked metrics

instance (cfg : Config) (ranked : List ℕ) (metrics : List (ℕ × MetricRecord)) :
    Decidable (shrinkExecuted cfg ranked metrics) := by
  unfold shrinkExecuted; infer_instance

/-- The allocations after the conditional proportional shrink
(`allocations = {k: v * scale_factor ...}` when `total_allocated`
exceeds the risk budget, unchanged otherwise). -/
def scaledAllocations (cfg : Config) (ranked : List ℕ)
    (metrics : List (ℕ × MetricRecord)) : AllocationMap :=
  if shrinkExecuted cfg ranked metrics then
    (clampedAllocations cfg ranked metrics).map fun e =>
      (e.1, e.2 * ((1 - cfg.cash_allocation) / totalAllocated cfg ranked metrics))
  else clampedAllocations cfg ranked metrics

/-- Allocator `calculate_optimal_allocation`: risk-parity allocation with clamping,
proportional shrink when over budget, and a final cash entry
`allocations[0] = remaining` when more than 1% of the total is left. -/
def calculate_optimal_allocation (cfg : Config) (ranked : List ℕ)
    (metrics : List (ℕ × MetricRecord)) : AllocationMap :=
  if ranked.isEmpty ∨ metrics.isEmpty then []
  else if 1/100 < 1 - sumValues (scaledAllocations cfg ranked metrics) then
    insertKey (scaledAllocations cfg ranked metrics) 0
      (1 - sumValues (scaledAllocations cfg ranked metrics))
  else scaledAllocations cfg ranked metrics

/-! ## Rebalance policy (`should_rebalance`) -/

/-- Maximum absolute per-entity allocation difference over the union of
the keys of both maps, a missing key counting as 0. -/
def maxDiff (current proposed : AllocationMap) : ℚ :=
  ((current.map Prod.fst ++ proposed.map Prod.fst).dedup).foldl
    (fun acc n => max acc |((lookupKey proposed n).getD 0) - ((lookupKey current n).getD 0)|) 0

/-- Policy `should_rebalance(current, new)`. Timestamps are rationals in
seconds; `lastRebalance` is `self.last_rebalance` (`none` when no
rebalance was ever accepted), and `now` stands for `datetime.now()`.
An empty map is falsy in Python, so either map being empty returns
`True` before the cooldown test; the hard-coded cooldown is 6 hours. -/
def should_rebalance (cfg : Config) (now : ℚ) (lastRebalance : Option ℚ)
    (current proposed : AllocationMap) : Bool :=
  if current.isEmpty || proposed.isEmpty then true
  else
    match lastRebalance with
    | some t =>
      if (now - t) / 3600 < 6 then false
      else decide (cfg.rebalance_threshold ≤ maxDiff current proposed)
    | none => decide (cfg.rebalance_threshold ≤ maxDiff current proposed)

/-- The rebalance decision taken in `EnhancedMiner.optimize_strategy`:
`force_rebalance or self.strategy_optimizer.should_rebalance(...)`. -/
def forced_should_rebalance (force : Bool) (cfg : Config) (now : ℚ)
    (lastRebalance : Option ℚ) (current proposed : AllocationMap) : Bool :=
  force || should_rebalance cfg now lastRebalance current proposed

/-! ## Theorems about the rebalance policy -/

/-- Claim C4 (confirmed): for non-empty allocation maps, when no cooldown
applies (`last_rebalance` unset) or the 6-hour cooldown has elapsed, the
decision is ACCEPT (true) iff the maximum absolute per-entity allocation
difference over the union of keys (missing keys read as 0) is at least
`rebalance_threshold`; in particular identical maps with a positive
threshold are rejected. -/
theorem claim_C4_threshold_iff (cfg : Config) (now : ℚ) (lastRebalance : Option ℚ)
    (current proposed : AllocationMap) (hc : current ≠ []) (hp : proposed ≠ [])
    (hcool : lastRebalance = none ∨ ∃ t, lastRebalance = some t ∧ 6 ≤ (now - t) / 3600) :
    (should_rebalance cfg now lastRebalance current proposed = true ↔
      cfg.rebalance_threshold ≤ maxDiff current proposed) := by
  cases current with
  | nil => exact absurd rfl hc
  | cons a cl =>
    cases proposed with
    | nil => exact absurd rfl hp
    | cons b pl =>
      rcases hcool with h | ⟨t, ht, h6⟩
      · subst h
        simp [should_rebalance]
      · subst ht
        simp [should_rebalance, not_lt.mpr h6]

/-- Witness for C4: the spec's own example — identical maps
`{1: 0.5, 2: 0.5}` with the positive default threshold 0.05 give
REJECT. -/
theorem claim_C4_witness :
    should_rebalance (mkOptimizer 30 (1/20) (1/4)) 0 none
      [(1, 1/2), (2, 1/2)] [(1, 1/2), (2, 1/2)] = false := by
  have h := claim_C4_threshold_iff (mkOptimizer 30 (1/20) (1/4)) 0 none
    [(1, 1/2), (2, 1/2)] [(1, 1/2), (2, 1/2)] (by simp) (by simp) (Or.inl rfl)
  have hm : maxDiff [(1, (1:ℚ)/2), (2, 1/2)] [(1, (1:ℚ)/2), (2, 1/2)] = 0 := by
    norm_num [maxDiff, lookupKey, List.dedup]
  rw [hm] at h
  cases hb : should_rebalance (mkOptimizer 30 (1/20) (1/4)) 0 none
      [(1, 1/2), (2, 1/2)] [(1, 1/2), (2, 1/2)] with
  | false => rfl
  | true =>
    have := h.mp hb
    norm_num [mkOptimizer] at this

/-- Claim C5 (confirmed): for non-empty maps with a recorded acceptance
timestamp, if less than the 6-hour cooldown has elapsed and the force
flag is not set, the decision is REJECT no matter how large the maximum
allocation difference is. -/
theorem claim_C5_cooldown_rejects (cfg : Config) (now t : ℚ)
    (current proposed : AllocationMap) (hc : current ≠ []) (hp : proposed ≠ [])
    (hcool : (now - t) / 3600 < 6) :
    forced_should_rebalance false cfg now (some t) current proposed = false := by
  cases current with
  | nil => exact absurd rfl hc
  | cons a cl =>
    cases proposed with
    | nil => exact absurd rfl hp
    | cons b pl =>
      simp [forced_should_rebalance, should_rebalance, hcool]

/-- Witness for C5: one second after an acceptance, a proposal differing
by 0.45 (far above the 0.05 threshold) is still rejected. -/
theorem claim_C5_witness :
    forced_should_rebalance false (mkOptimizer 30 (1/20) (1/4)) 1 (some 0)
      [(1, 1/2)] [(1, 95/100)] = false :=
  claim_C5_cooldown_rejects (mkOptimizer 30 (1/20) (1/4)) 1 0
    [(1, 1/2)] [(1, 95/100)] (by simp) (by simp) (by norm_num)

/-- Claim C6 (confirmed): an empty current allocation map yields ACCEPT
for any proposed map, any timestamp, and any cooldown state — the
emptiness test precedes the cooldown test in `should_rebalance`. -/
theorem claim_C6_empty_current_accepts (cfg : Config) (now : ℚ)
    (lastRebalance : Option ℚ) (proposed : AllocationMap) :
    should_rebalance cfg now lastRebalance [] proposed = true := by
  simp [should_rebalance]

/-- Claim C10 (confirmed): with no recorded last-acceptance timestamp the
cooldown test is skipped and, for non-empty maps, the decision is exactly
the comparison of the maximum per-entity difference against
`rebalance_threshold`. -/
theorem claim_C10_no_timestamp_iff (cfg : Config) (now : ℚ)
    (current proposed : AllocationMap) (hc : current ≠ []) (hp : proposed ≠ []) :
    (should_rebalance cfg now none current proposed = true ↔
      cfg.rebalance_threshold ≤ maxDiff current proposed) := by
  cases current with
  | nil => exact absurd rfl hc
  | cons a cl =>
    cases proposed with
    | nil => exact absurd rfl hp
    | cons b pl =>
      simp [should_rebalance]

/-- Witness for C10: fresh start (`last_rebalance = None`), maps
differing by 0.5 ≥ 0.05, decision is ACCEPT even at `now = 0`. -/
theorem claim_C10_witness :
    should_rebalance (mkOptimizer 30 (1/20) (1/4)) 0 none
      [(1, 1/2)] [(1, 1)] = true := by
  have h := claim_C10_no_timestamp_iff (mkOptimizer 30 (1/20) (1/4)) 0
    [(1, 1/2)] [(1, 1)] (by simp) (by simp)
  have hm : maxDiff [(1, (1:ℚ)/2)] [(1, (1:ℚ))] = 1/2 := by
    norm_num [maxDiff, lookupKey, List.dedup]
  rw [hm] at h
  exact h.mpr (by norm_num [mkOptimizer])

/-! ## Helper lemmas about allocation maps -/

/-- An element of `insertKey m k v` is an element of `m` or the new binding. -/
theorem mem_insertKey {m : AllocationMap} {k : ℕ} {v : ℚ} {e : ℕ × ℚ}
    (h : e ∈ insertKey m k v) : e ∈ m ∨ e = (k, v) := by
  unfold insertKey at h
  split at h
  · rcases List.mem_map.mp h with ⟨e', he', heq⟩
    by_cases hk : e'.1 == k
    · right; rw [if_pos hk] at heq; exact heq.symm
    · left; rw [if_neg hk] at heq; exact heq ▸ he'
  · rcases List.mem_append.mp h with h' | h'
    · exact Or.inl h'
    · right; simpa using h'

/-- Assigning a fresh key appends the binding. -/
theorem insertKey_of_not_mem {m : AllocationMap} {k : ℕ} {v : ℚ}
    (h : ∀ e ∈ m, e.1 ≠ k) : insertKey m k v = m ++ [(k, v)] := by
  unfold insertKey
  rw [if_neg]
  rw [List.any_eq_true]
  rintro ⟨e, he, hek⟩
  exact h e he (by simpa using hek)

/-- Appending a fresh key adds its value to the sum. -/
theorem sumValues_insertKey_of_not_mem {m : AllocationMap} {k : ℕ} {v : ℚ}
    (h : ∀ e ∈ m, e.1 ≠ k) : sumValues (insertKey m k v) = sumValues m + v := by
  rw [insertKey_of_not_mem h]
  simp [sumValues]

/-- The cash entry does not contribute to the non-cash sum. -/
theorem nonCashSum_append_cash (m : AllocationMap) (r : ℚ) :
    nonCashSum (m ++ [(0, r)]) = nonCashSum m := by
  unfold nonCashSum
  rw [List.filter_append]
  simp [sumValues]

/-- A map without the cash key has non-cash sum equal to its full sum. -/
theorem nonCashSum_of_no_cash {m : AllocationMap} (h : ∀ e ∈ m, e.1 ≠ 0) :
    nonCashSum m = sumValues m := by
  unfold nonCashSum
  rw [List.filter_eq_self.mpr]
  intro a ha
  simpa using h a ha

/-- Scaling every value scales the sum. -/
theorem sumValues_scale (m : AllocationMap) (s : ℚ) :
    sumValues (m.map fun e => (e.1, e.2 * s)) = sumValues m * s := by
  induction m with
  | nil => simp [sumValues]
  | cons a l ih =>
    simp only [sumValues, List.map_cons, List.sum_cons] at *
    rw [ih]; ring

/-- An entry of `allocStep acc n` is an entry of `acc` or a fresh binding
for `n` whose value is the clamp of the base allocation. -/
theorem mem_allocStep (cfg : Config) (ranked : List ℕ)
    (metrics : List (ℕ × MetricRecord)) (acc : AllocationMap) (n : ℕ) (e : ℕ × ℚ)
    (h : e ∈ allocStep cfg ranked metrics acc n) :
    e ∈ acc ∨ (e.1 = n ∧ (cfg.min_allocation ≤ cfg.max_allocation →
      cfg.min_allocation ≤ e.2 ∧ e.2 ≤ cfg.max_allocation)) := by
  unfold allocStep at h
  rcases hiv : invVolOf metrics n with _ | iv
  · simp only [hiv] at h
    exact Or.inl h
  · simp only [hiv] at h
    by_cases htot : 0 < totalInvVol cfg ranked metrics
    · rw [if_pos htot] at h
      rcases mem_insertKey h with h' | h'
      · exact Or.inl h'
      · right
        rw [h']
        exact ⟨rfl, fun hmm => ⟨le_max_left _ _, max_le hmm (min_le_left _ _)⟩⟩
    · rw [if_neg htot] at h
      exact Or.inl h

/-- Every entry produced by the clamp loop was already in the accumulator
or has its key among the iterated entities and its value within the clamp
bounds. -/
theorem mem_foldl_allocStep (cfg : Config) (ranked : List ℕ)
    (metrics : List (ℕ × MetricRecord)) :
    ∀ (l : List ℕ) (acc : AllocationMap) (e : ℕ × ℚ),
      e ∈ l.foldl (allocStep cfg ranked metrics) acc →
      e ∈ acc ∨ (e.1 ∈ l ∧ (cfg.min_allocation ≤ cfg.max_allocation →
        cfg.min_allocation ≤ e.2 ∧ e.2 ≤ cfg.max_allocation)) := by
  intro l
  induction l with
  | nil => intro acc e h; exact Or.inl h
  | cons n l ih =>
    intro acc e h
    rw [List.foldl_cons] at h
    rcases ih (allocStep cfg ranked metrics acc n) e h with h' | h'
    · rcases mem_allocStep cfg ranked metrics acc n e h' with h'' | ⟨hk, hb⟩
      · exact Or.inl h''
      · exact Or.inr ⟨by rw [hk]; exact List.mem_cons_self _ _, hb⟩
    · exact Or.inr ⟨List.mem_cons_of_mem _ h'.1, h'.2⟩

/-- Keys of the clamped allocations are selected entities. -/
theorem keys_clampedAllocations {cfg : Config} {ranked : List ℕ}
    {metrics : List (ℕ × MetricRecord)} {e : ℕ × ℚ}
    (h : e ∈ clampedAllocations cfg ranked metrics) : e.1 ∈ selectedOf cfg ranked := by
  rcases mem_foldl_allocStep cfg ranked metrics (selectedOf cfg ranked) [] e h with h' | h'
  · simp at h'
  · exact h'.1

/-- Values of the clamped allocations are within the clamp bounds. -/
theorem bounds_clampedAllocations {cfg : Config} {ranked : List ℕ}
    {metrics : List (ℕ × MetricRecord)}
    (hmm : cfg.min_allocation ≤ cfg.max_allocation) {e : ℕ × ℚ}
    (h : e ∈ clampedAllocations cfg ranked metrics) :
    cfg.min_allocation ≤ e.2 ∧ e.2 ≤ cfg.max_allocation := by
  rcases mem_foldl_allocStep cfg ranked metrics (selectedOf cfg ranked) [] e h with h' | h'
  · simp at h'
  · exact h'.2 hmm

/-- Keys of the scaled allocations are selected entities. -/
theorem keys_scaledAllocations {cfg : Config} {ranked : List ℕ}
    {metrics : List (ℕ × MetricRecord)} {e : ℕ × ℚ}
    (h : e ∈ scaledAllocations cfg ranked metrics) : e.1 ∈ selectedOf cfg ranked := by
  unfold scaledAllocations at h
  split at h
  · rcases List.mem_map.mp h with ⟨e', he', heq⟩
    have := keys_clampedAllocations he'
    rw [← heq] at *
    exact this
  · exact keys_clampedAllocations h

/-- If the cash sentinel 0 is not a ranked entity, no scaled entry
carries key 0. -/
theorem key_zero_not_in_scaled (cfg : Config) (ranked : List ℕ)
    (metrics : List (ℕ × MetricRecord)) (h0 : 0 ∉ ranked) :
    ∀ e ∈ scaledAllocations cfg ranked metrics, e.1 ≠ 0 := by
  intro e he heq
  have hsel := keys_scaledAllocations he
  rw [heq] at hsel
  exact h0 (List.take_subset _ _ hsel)

/-- After the shrink step the allocation sum is exactly the risk budget;
without it, it is at most the risk budget. -/
theorem sumValues_scaledAllocations (cfg : Config) (ranked : List ℕ)
    (metrics : List (ℕ × MetricRecord)) (hcash : cfg.cash_allocation < 1) :
    (shrinkExecuted cfg ranked metrics →
      sumValues (scaledAllocations cfg ranked metrics) = 1 - cfg.cash_allocation) ∧
    sumValues (scaledAllocations cfg ranked metrics) ≤ 1 - cfg.cash_allocation := by
  have hb : (0:ℚ) < 1 - cfg.cash_allocation := by linarith
  unfold scaledAllocations
  by_cases hs : shrinkExecuted cfg ranked metrics
  · rw [if_pos hs]
    have htot : totalAllocated cfg ranked metrics ≠ 0 := by
      have := hs
      unfold shrinkExecuted at this
      exact ne_of_gt (lt_trans hb this)
    rw [sumValues_scale]
    have : sumValues (clampedAllocations cfg ranked metrics) = totalAllocated cfg ranked metrics :=
      rfl
    rw [this, mul_div_assoc', mul_comm, mul_div_assoc, div_self htot, mul_one]
    exact ⟨fun _ => rfl, le_refl _⟩
  · rw [if_neg hs]
    unfold shrinkExecuted at hs
    push_neg at hs
    exact ⟨fun h => absurd h (by unfold shrinkExecuted; push_neg; exact hs), hs⟩

/-! ## Theorems about the allocator -/

/-- Claim C3 (corrected, amended form): whenever the ranked list and the
metrics mapping are both non-empty, the cash sentinel 0 is not a ranked
entity, and the (hard-coded) cash reserve lies strictly between 1% and
100%, the values of the returned allocation map — cash entry included —
sum to exactly 1. -/
theorem claim_C3_amended (cfg : Config) (ranked : List ℕ)
    (metrics : List (ℕ × MetricRecord)) (hr : ranked ≠ []) (hm : metrics ≠ [])
    (h0 : 0 ∉ ranked) (hcash1 : 1/100 < cfg.cash_allocation)
    (hcash2 : cfg.cash_allocation < 1) :
    sumValues (calculate_optimal_allocation cfg ranked metrics) = 1 := by
  have hne : ¬(ranked.isEmpty ∨ metrics.isEmpty) := by
    cases ranked with
    | nil => exact absurd rfl hr
    | cons a l =>
      cases metrics with
      | nil => exact absurd rfl hm
      | cons b m => simp
  have hsum := (sumValues_scaledAllocations cfg ranked metrics hcash2).2
  have hlt : sumValues (scaledAllocations cfg ranked metrics) < 1 - 1/100 := by
    linarith
  rw [calculate_optimal_allocation, if_neg hne, if_pos (by linarith)]
  rw [sumValues_insertKey_of_not_mem (key_zero_not_in_scaled cfg ranked metrics h0)]
  ring

/-- Witness for C3 (amended): one entity with volatility 0.01 gets the
clamped allocation 0.25 and cash absorbs the remaining 0.75; the map sums
to 1. -/
theorem claim_C3_witness :
    sumValues (calculate_optimal_allocation (mkOptimizer 30 (1/20) (1/4)) [1]
      [(1, { (default : MetricRecord) with volatility := 1/100 })]) = 1 :=
  claim_C3_amended (mkOptimizer 30 (1/20) (1/4)) [1]
    [(1, { (default : MetricRecord) with volatility := 1/100 })]
    (by simp) (by simp) (by simp) (by norm_num [mkOptimizer]) (by norm_num [mkOptimizer])

/-- Counterexample for C3 as stated: a non-empty ranked list with an
empty metrics mapping returns the empty allocation map, whose sum 0 is
far below `1 - 1e-6`. -/
theorem claim_C3_counterexample :
    sumValues (calculate_optimal_allocation (mkOptimizer 30 (1/20) (1/4)) [1] []) <
      1 - 1/1000000 := by
  norm_num [calculate_optimal_allocation, sumValues]

/-- Claim C2 (corrected, amended form): provided the configuration is
sane (`0 ≤ min_allocation ≤ max_allocation`, `cash_allocation < 1`) and
the cash sentinel 0 is not a ranked entity, every non-cash entry of the
allocator output is at most `max_allocation`; below the shrink threshold
it is also at least `min_allocation`, and when the proportional shrink
has executed the non-cash entries sum exactly to
`total_risk_budget = 1 - cash_allocation`. -/
theorem claim_C2_amended (cfg : Config) (ranked : List ℕ)
    (metrics : List (ℕ × MetricRecord))
    (hmin0 : 0 ≤ cfg.min_allocation)
    (hmm : cfg.min_allocation ≤ cfg.max_allocation)
    (h0 : 0 ∉ ranked) (hcash : cfg.cash_allocation < 1)
    (e : ℕ × ℚ) (he : e ∈ calculate_optimal_allocation cfg ranked metrics)
    (hne : e.1 ≠ 0) :
    (e.2 ≤ cfg.max_allocation ∧
      (¬ shrinkExecuted cfg ranked metrics → cfg.min_allocation ≤ e.2)) ∧
    (shrinkExecuted cfg ranked metrics →
      nonCashSum (calculate_optimal_allocation cfg ranked metrics) =
        1 - cfg.cash_allocation) := by
  by_cases hg : ranked.isEmpty ∨ metrics.isEmpty
  · rw [calculate_optimal_allocation, if_pos hg] at he
    simp at he
  have hfresh := key_zero_not_in_scaled cfg ranked metrics h0
  have hsum : shrinkExecuted cfg ranked metrics →
      nonCashSum (calculate_optimal_allocation cfg ranked metrics) =
        1 - cfg.cash_allocation := by
    intro hs
    have hS := (sumValues_scaledAllocations cfg ranked metrics hcash).1 hs
    rw [calculate_optimal_allocation, if_neg hg]
    by_cases hrem : 1/100 < 1 - sumValues (scaledAllocations cfg ranked metrics)
    · rw [if_pos hrem, insertKey_of_not_mem hfresh, nonCashSum_append_cash,
        nonCashSum_of_no_cash hfresh, hS]
    · rw [if_neg hrem, nonCashSum_of_no_cash hfresh, hS]
  refine ⟨?_, hsum⟩
  rw [calculate_optimal_allocation, if_neg hg] at he
  have hmem : e ∈ scaledAllocations cfg ranked metrics := by
    by_cases hrem : 1/100 < 1 - sumValues (scaledAllocations cfg ranked metrics)
    · rw [if_pos hrem, insertKey_of_not_mem hfresh] at he
      rcases List.mem_append.mp he with h' | h'
      · exact h'
      · simp only [List.mem_singleton] at h'
        rw [h'] at hne
        exact absurd rfl hne
    · rw [if_neg hrem] at he
      exact he
  unfold scaledAllocations at hmem
  by_cases hs : shrinkExecuted cfg ranked metrics
  · rw [if_pos hs] at hmem
    rcases List.mem_map.mp hmem with ⟨x, hx, hxe⟩
    have hb := bounds_clampedAllocations hmm hx
    have hbudget : (0:ℚ) < 1 - cfg.cash_allocation := by linarith
    have htot : 1 - cfg.cash_allocation < totalAllocated cfg ranked metrics := hs
    have hscale1 : (1 - cfg.cash_allocation) / totalAllocated cfg ranked metrics ≤ 1 := by
      rw [div_le_one (by linarith)]
      linarith
    have hx2 : (0:ℚ) ≤ x.2 := le_trans hmin0 hb.1
    have he2 : e.2 = x.2 * ((1 - cfg.cash_allocation) / totalAllocated cfg ranked metrics) := by
      rw [← hxe]
    constructor
    · rw [he2]
      calc x.2 * ((1 - cfg.cash_allocation) / totalAllocated cfg ranked metrics)
          ≤ x.2 * 1 := mul_le_mul_of_nonneg_left hscale1 hx2
        _ = x.2 := mul_one _
        _ ≤ cfg.max_allocation := hb.2
    · intro hns
      exact absurd hs hns
  · rw [if_neg hs] at hmem
    have hb := bounds_clampedAllocations hmm hmem
    exact ⟨hb.2, fun _ => hb.1⟩

/-- Witness for C2 (amended): with the default configuration, one ranked
entity of volatility 0.01 receives the max-clamped allocation 0.25, which
satisfies the bounds (no shrink occurs for a single entity). -/
theorem claim_C2_witness :
    ((((1:ℕ), (1:ℚ)/4).2 ≤ (mkOptimizer 30 (1/20) (1/4)).max_allocation ∧
      (¬ shrinkExecuted (mkOptimizer 30 (1/20) (1/4)) [1]
          [(1, { (default : MetricRecord) with volatility := 1/100 })] →
        (mkOptimizer 30 (1/20) (1/4)).min_allocation ≤ (((1:ℕ), (1:ℚ)/4)).2)) ∧
    (shrinkExecuted (mkOptimizer 30 (1/20) (1/4)) [1]
        [(1, { (default : MetricRecord) with volatility := 1/100 })] →
      nonCashSum (calculate_optimal_allocation (mkOptimizer 30 (1/20) (1/4)) [1]
          [(1, { (default : MetricRecord) with volatility := 1/100 })]) =
        1 - (mkOptimizer 30 (1/20) (1/4)).cash_allocation)) :=
  claim_C2_amended (mkOptimizer 30 (1/20) (1/4)) [1]
    [(1, { (default : MetricRecord) with volatility := 1/100 })]
    (by norm_num [mkOptimizer]) (by norm_num [mkOptimizer]) (by simp)
    (by norm_num [mkOptimizer]) (1, 1/4)
    (by norm_num [calculate_optimal_allocation, scaledAllocations, shrinkExecuted,
      totalAllocated, clampedAllocations, selectedOf, allocStep, invVolOf, totalInvVol,
      insertKey, sumValues, mkOptimizer, List.lookup, List.filterMap, List.take,
      beq_eq_decide, min_def, max_def])
    (by norm_num)

/-- Counterexample for C2 as stated: five ranked entities including the
id 0 (which the source also uses as the cash key). Four have volatility 1
and one volatility 400, so the clamp raises the sum above the 0.95 budget
and the proportional shrink executes; the final cash write
`allocations[0] = remaining` then overwrites entity 0's scaled
allocation, leaving the non-cash entries to sum to about 0.7174, far
from `total_risk_budget = 0.95` (tolerance 1e-6). -/
theorem claim_C2_counterexample :
    shrinkExecuted (mkOptimizer 30 (1/20) (1/4)) [0, 1, 2, 3, 4]
      [(0, { (default : MetricRecord) with volatility := 1 }),
       (1, { (default : MetricRecord) with volatility := 1 }),
       (2, { (default : MetricRecord) with volatility := 1 }),
       (3, { (default : MetricRecord) with volatility := 1 }),
       (4, { (default : MetricRecord) with volatility := 400 })] ∧
    nonCashSum (calculate_optimal_allocation (mkOptimizer 30 (1/20) (1/4)) [0, 1, 2, 3, 4]
      [(0, { (default : MetricRecord) with volatility := 1 }),
       (1, { (default : MetricRecord) with volatility := 1 }),
       (2, { (default : MetricRecord) with volatility := 1 }),
       (3, { (default : MetricRecord) with volatility := 1 }),
       (4, { (default : MetricRecord) with volatility := 400 })]) <
      19/20 - 1/1000000 := by
  constructor
  · norm_num [shrinkExecuted, totalAllocated, clampedAllocations, selectedOf, allocStep,
      invVolOf, totalInvVol, insertKey, sumValues, mkOptimizer, List.lookup,
      List.filterMap, List.take, beq_eq_decide, min_def, max_def]
  · norm_num [calculate_optimal_allocation, scaledAllocations, shrinkExecuted,
      totalAllocated, clampedAllocations, selectedOf, allocStep, invVolOf, totalInvVol,
      insertKey, sumValues, nonCashSum, mkOptimizer, List.lookup, List.filterMap,
      List.take, beq_eq_decide, min_def, max_def]

/-! ## Theorems about the metrics calculator -/

/-- Inversion of `calculate_performance_metrics`: a produced record is
`mkRecord` on the input, and all three skip-guards were passed. -/
theorem calc_metrics_eq (sqrtQ : ℚ → ℚ) (nroot : ℚ → ℕ → ℚ) (rows : List Row)
    (m : MetricRecord)
    (h : calculate_performance_metrics sqrtQ nroot rows = some m) :
    m = mkRecord sqrtQ nroot rows ∧ ¬ rows.length < 5 ∧
      ¬((rows.map Row.price).length = 0 ∨ ∀ p ∈ rows.map Row.price, p = 0) ∧
      (computeReturns (rows.map Row.price)).length ≠ 0 := by
  unfold calculate_performance_metrics at h
  by_cases h1 : rows.length < 5
  · rw [if_pos h1] at h; cases h
  rw [if_neg h1] at h
  by_cases h2 : (rows.map Row.price).length = 0 ∨ ∀ p ∈ rows.map Row.price, p = 0
  · rw [if_pos h2] at h; cases h
  rw [if_neg h2] at h
  by_cases h3 : (computeReturns (rows.map Row.price)).length = 0
  · rw [if_pos h3] at h; cases h
  rw [if_neg h3] at h
  exact ⟨(Option.some.inj h).symm, h1, h2, h3⟩

/-- The absolute value of a float-like number is NaN or nonnegative. -/
theorem fvAbs_nan_or_nonneg (v : FVal) :
    (FVal.abs v).isNan = true ∨ (FVal.abs v).nonnegB = true := by
  cases v with
  | fin q => right; simp [FVal.abs, FVal.nonnegB, abs_nonneg]
  | inf => right; rfl
  | nan => left; rfl

/-- Claim C1 (corrected, amended form): if `calculate_performance_metrics`
produces a record (for any nonnegative square-root function, as `np.std`
is), then the input series had at least 5 samples and a non-zero price,
the record's `data_points` (count of valid return observations) is at
least 1 — not 5: the row-count guard allows as few as one —, its
volatility is nonnegative, and its `max_drawdown` is nonnegative or the
NaN produced by a zero cumulative-return peak. -/
theorem claim_C1_amended (sqrtQ : ℚ → ℚ) (nroot : ℚ → ℕ → ℚ) (rows : List Row)
    (m : MetricRecord) (hsq : ∀ q, 0 ≤ sqrtQ q)
    (h : calculate_performance_metrics sqrtQ nroot rows = some m) :
    5 ≤ rows.length ∧ (∃ r ∈ rows, r.price ≠ 0) ∧ 1 ≤ m.data_points ∧
      0 ≤ m.volatility ∧
      (m.max_drawdown.isNan = true ∨ m.max_drawdown.nonnegB = true) := by
  obtain ⟨hm, h1, h2, h3⟩ := calc_metrics_eq sqrtQ nroot rows m h
  subst hm
  push_neg at h2
  refine ⟨by omega, ?_, ?_, ?_, ?_⟩
  · rcases h2.2 with ⟨p, hp, hpne⟩
    rcases List.mem_map.mp hp with ⟨r, hr, hrp⟩
    exact ⟨r, hr, by rw [hrp]; exact hpne⟩
  · have hdp : (mkRecord sqrtQ nroot rows).data_points =
        (computeReturns (rows.map Row.price)).length := rfl
    omega
  · show 0 ≤ (if 1 < (computeReturns (rows.map Row.price)).length then
      sqrtQ (varQ (computeReturns (rows.map Row.price))) else 0)
    split
    · exact hsq _
    · exact le_refl 0
  · exact fvAbs_nan_or_nonneg _

/-- Witness for C1 (amended), at the five-sample series with prices
1,2,3,4,5 (absolute value as the abstract square root, constant 1 as the
abstract root). -/
theorem claim_C1_witness :
    5 ≤ ([⟨1, 0, 0⟩, ⟨2, 0, 0⟩, ⟨3, 0, 0⟩, ⟨4, 0, 0⟩, ⟨5, 0, 0⟩] : List Row).length ∧
    (∃ r ∈ ([⟨1, 0, 0⟩, ⟨2, 0, 0⟩, ⟨3, 0, 0⟩, ⟨4, 0, 0⟩, ⟨5, 0, 0⟩] : List Row),
      r.price ≠ 0) ∧
    1 ≤ ((calculate_performance_metrics (fun q => |q|) (fun _ _ => 1)
      [⟨1, 0, 0⟩, ⟨2, 0, 0⟩, ⟨3, 0, 0⟩, ⟨4, 0, 0⟩, ⟨5, 0, 0⟩]).getD default).data_points ∧
    0 ≤ ((calculate_performance_metrics (fun q => |q|) (fun _ _ => 1)
      [⟨1, 0, 0⟩, ⟨2, 0, 0⟩, ⟨3, 0, 0⟩, ⟨4, 0, 0⟩, ⟨5, 0, 0⟩]).getD default).volatility ∧
    (((calculate_performance_metrics (fun q => |q|) (fun _ _ => 1)
        [⟨1, 0, 0⟩, ⟨2, 0, 0⟩, ⟨3, 0, 0⟩, ⟨4, 0, 0⟩, ⟨5, 0, 0⟩]).getD
          default).max_drawdown.isNan = true ∨
      ((calculate_performance_metrics (fun q => |q|) (fun _ _ => 1)
        [⟨1, 0, 0⟩, ⟨2, 0, 0⟩, ⟨3, 0, 0⟩, ⟨4, 0, 0⟩, ⟨5, 0, 0⟩]).getD
          default).max_drawdown.nonnegB = true) :=
  claim_C1_amended (fun q => |q|) (fun _ _ => 1)
    [⟨1, 0, 0⟩, ⟨2, 0, 0⟩, ⟨3, 0, 0⟩, ⟨4, 0, 0⟩, ⟨5, 0, 0⟩]
    ((calculate_performance_metrics (fun q => |q|) (fun _ _ => 1)
      [⟨1, 0, 0⟩, ⟨2, 0, 0⟩, ⟨3, 0, 0⟩, ⟨4, 0, 0⟩, ⟨5, 0, 0⟩]).getD default)
    (fun q => abs_nonneg q) rfl

/-- Counterexample for C1 as stated: exactly five samples pass the
row-count guard, yet only four returns exist, so a record with
`data_points = 4 < 5` is produced. -/
theorem claim_C1_counterexample :
    ((calculate_performance_metrics (fun _ => 0) (fun _ _ => 1)
        [⟨1, 0, 0⟩, ⟨2, 0, 0⟩, ⟨3, 0, 0⟩, ⟨4, 0, 0⟩, ⟨5, 0, 0⟩]).map
      MetricRecord.data_points = some 4) ∧ ¬ 5 ≤ 4 := by
  constructor
  · rfl
  · omega

/-- The composite-score match of `mkRecord` seen as a `FVal.mulQ`
product: finite `mar` multiplies out (up to reassociation), NaN
propagates. -/
theorem composite_mulQ (tr l o dr : ℚ) (v : FVal) :
    (match (match v.pyMax (1/100) with
            | .fin d => FVal.fin (tr / d)
            | _ => FVal.nan) with
     | .fin x => FVal.fin (x * l * o * dr * 100)
     | _ => FVal.nan) =
    FVal.mulQ (match v.pyMax (1/100) with
               | .fin d => FVal.fin (tr / d)
               | _ => FVal.nan) (l * o * dr * 100) := by
  cases v with
  | fin q =>
    simp only [FVal.pyMax, FVal.mulQ]
    congr 1
    ring
  | inf => rfl
  | nan => rfl

/-- Claim C8 (confirmed): every produced record satisfies
`odds = 50 + kelly·50` and
`composite_score = mar · lsr · odds · daily_return · 100` (NaN
propagating multiplicatively, exactly as in the source). -/
theorem claim_C8_score_formulas (sqrtQ : ℚ → ℚ) (nroot : ℚ → ℕ → ℚ) (rows : List Row)
    (m : MetricRecord)
    (h : calculate_performance_metrics sqrtQ nroot rows = some m) :
    m.odds = 50 + m.kelly * 50 ∧
      m.composite_score = m.mar.mulQ (m.lsr * m.odds * m.daily_return * 100) := by
  obtain ⟨hm, -, -, -⟩ := calc_metrics_eq sqrtQ nroot rows m h
  subst hm
  constructor
  · show 50 + kellyOf (computeReturns (rows.map Row.price)) / 2 * 100 =
      50 + kellyOf (computeReturns (rows.map Row.price)) * 50
    ring
  · exact composite_mulQ _ _ _ _ _

/-- Witness for C8, at the five-sample series with prices 1,2,3,4,5. -/
theorem claim_C8_witness :
    ((calculate_performance_metrics (fun q => |q|) (fun _ _ => 1)
      [⟨1, 0, 0⟩, ⟨2, 0, 0⟩, ⟨3, 0, 0⟩, ⟨4, 0, 0⟩, ⟨5, 0, 0⟩]).getD default).odds =
      50 + ((calculate_performance_metrics (fun q => |q|) (fun _ _ => 1)
        [⟨1, 0, 0⟩, ⟨2, 0, 0⟩, ⟨3, 0, 0⟩, ⟨4, 0, 0⟩, ⟨5, 0, 0⟩]).getD default).kelly * 50 ∧
    ((calculate_performance_metrics (fun q => |q|) (fun _ _ => 1)
      [⟨1, 0, 0⟩, ⟨2, 0, 0⟩, ⟨3, 0, 0⟩, ⟨4, 0, 0⟩, ⟨5, 0, 0⟩]).getD
        default).composite_score =
      (((calculate_performance_metrics (fun q => |q|) (fun _ _ => 1)
        [⟨1, 0, 0⟩, ⟨2, 0, 0⟩, ⟨3, 0, 0⟩, ⟨4, 0, 0⟩, ⟨5, 0, 0⟩]).getD default).mar).mulQ
        (((calculate_performance_metrics (fun q => |q|) (fun _ _ => 1)
          [⟨1, 0, 0⟩, ⟨2, 0, 0⟩, ⟨3, 0, 0⟩, ⟨4, 0, 0⟩, ⟨5, 0, 0⟩]).getD default).lsr *
        ((calculate_performance_metrics (fun q => |q|) (fun _ _ => 1)
          [⟨1, 0, 0⟩, ⟨2, 0, 0⟩, ⟨3, 0, 0⟩, ⟨4, 0, 0⟩, ⟨5, 0, 0⟩]).getD default).odds *
        ((calculate_performance_metrics (fun q => |q|) (fun _ _ => 1)
          [⟨1, 0, 0⟩, ⟨2, 0, 0⟩, ⟨3, 0, 0⟩, ⟨4, 0, 0⟩, ⟨5, 0, 0⟩]).getD default).daily_return *
        100) :=
  claim_C8_score_formulas (fun q => |q|) (fun _ _ => 1)
    [⟨1, 0, 0⟩, ⟨2, 0, 0⟩, ⟨3, 0, 0⟩, ⟨4, 0, 0⟩, ⟨5, 0, 0⟩]
    ((calculate_performance_metrics (fun q => |q|) (fun _ _ => 1)
      [⟨1, 0, 0⟩, ⟨2, 0, 0⟩, ⟨3, 0, 0⟩, ⟨4, 0, 0⟩, ⟨5, 0, 0⟩]).getD default) rfl

/-- Claim C9 (confirmed): when the computed `avg_loss` is 0 (all returns
positive, so the zero-counting guard is skipped) and at least one return
is positive, the record's `profit_factor` is `+∞` and `kelly` is computed
without faulting, evaluating to `win_rate` (since `(1-win_rate)/∞ = 0`). -/
theorem claim_C9_inf_profit (sqrtQ : ℚ → ℚ) (nroot : ℚ → ℕ → ℚ) (rows : List Row)
    (m : MetricRecord)
    (h : calculate_performance_metrics sqrtQ nroot rows = some m)
    (hloss : avgLossOf (computeReturns (rows.map Row.price)) = FVal.fin 0)
    (_hpos : ∃ r ∈ computeReturns (rows.map Row.price), 0 < r) :
    m.profit_factor = FVal.inf ∧ m.kelly = m.win_rate := by
  obtain ⟨hm, -, -, -⟩ := calc_metrics_eq sqrtQ nroot rows m h
  subst hm
  have hpf : profitFactorOf (computeReturns (rows.map Row.price)) = FVal.inf := by
    unfold profitFactorOf
    rw [hloss]
    simp
  constructor
  · exact hpf
  · show kellyOf (computeReturns (rows.map Row.price)) =
      winRateOf (computeReturns (rows.map Row.price))
    unfold kellyOf
    rw [hpf]

/-- Witness for C9, at the strictly increasing price series 1..6: every
return is positive, `avg_loss = 0`, `profit_factor = +∞`, and kelly
equals the win rate 1. -/
theorem claim_C9_witness :
    ((calculate_performance_metrics (fun q => |q|) (fun _ _ => 1)
      [⟨1, 0, 0⟩, ⟨2, 0, 0⟩, ⟨3, 0, 0⟩, ⟨4, 0, 0⟩, ⟨5, 0, 0⟩, ⟨6, 0, 0⟩]).getD
        default).profit_factor = FVal.inf ∧
    ((calculate_performance_metrics (fun q => |q|) (fun _ _ => 1)
      [⟨1, 0, 0⟩, ⟨2, 0, 0⟩, ⟨3, 0, 0⟩, ⟨4, 0, 0⟩, ⟨5, 0, 0⟩, ⟨6, 0, 0⟩]).getD
        default).kelly =
      ((calculate_performance_metrics (fun q => |q|) (fun _ _ => 1)
        [⟨1, 0, 0⟩, ⟨2, 0, 0⟩, ⟨3, 0, 0⟩, ⟨4, 0, 0⟩, ⟨5, 0, 0⟩, ⟨6, 0, 0⟩]).getD
          default).win_rate := by
  refine claim_C9_inf_profit (fun q => |q|) (fun _ _ => 1)
    [⟨1, 0, 0⟩, ⟨2, 0, 0⟩, ⟨3, 0, 0⟩, ⟨4, 0, 0⟩, ⟨5, 0, 0⟩, ⟨6, 0, 0⟩]
    ((calculate_performance_metrics (fun q => |q|) (fun _ _ => 1)
      [⟨1, 0, 0⟩, ⟨2, 0, 0⟩, ⟨3, 0, 0⟩, ⟨4, 0, 0⟩, ⟨5, 0, 0⟩, ⟨6, 0, 0⟩]).getD default)
    rfl ?_ ?_
  · norm_num [avgLossOf, computeReturns, List.filterMap, List.filter, meanQ]
  · refine ⟨1, ?_, one_pos⟩
    norm_num [computeReturns, List.filterMap]

end Subnet88
